import Mathlib

/-!
Verification of the realtime audio session engine of Vocal-Edge-ai
(`CommunicationCoach` in `services/geminiService.ts`, shallowly embedded).

The mutable fields of the `CommunicationCoach` class become a `CoachState`
record; each event handler of the live session (`onaudioprocess`, the
`onmessage` branches for model audio / interruption / turn-complete) and each
public method (`getRealtimeMetrics`, `resetPaceCounter`, `stopSession`)
becomes an explicit state-passing function.  JavaScript numbers used as audio
clocks are modelled as rationals, `Date.now()` millisecond timestamps as
naturals, and 16-bit PCM samples as integers.
-/

namespace VocalEdge

/-- Role of a conversation turn (the string literals `'user'` / `'model'`). -/
inductive Role where
  | user
  | model
deriving DecidableEq

/-- Modelled from the spec: `pcm16ToPlayableContainer` (the `pcmToWav` helper
lives in `services/audioUtils.ts`, which is not part of the sources here).
The playable artifact is modelled by its content: the 16-bit sample sequence
and the declared sample rate. -/
structure WavBlob where
  samples : List Int
  rate : Nat
deriving DecidableEq

/-- Modelled from the spec: wrap samples in a self-describing playable
artifact tagged with its sample rate. -/
def pcmToWav (samples : List Int) (rate : Nat) : WavBlob :=
  ⟨samples, rate⟩

/-- Truncation toward zero of a rational, as JavaScript's ToIntegerOrInfinity
does for finite numbers. -/
def ratTrunc (q : ℚ) : Int :=
  if 0 ≤ q then ⌊q⌋ else ⌈q⌉

/-- JavaScript `ToInt16`: reduce an integer modulo 2^16 into [-32768, 32768).
Used by `new Int16Array(array)` element conversion. -/
def toInt16 (n : Int) : Int :=
  let m := n % 65536
  if 32768 ≤ m then m - 65536 else m

/-- `new Int16Array` conversion applied to a JavaScript number. -/
def jsToInt16 (q : ℚ) : Int :=
  toInt16 (ratTrunc q)

/-- One element of the `turns` array (interface `RecordingTurn` in
`types.ts`): id string, role, accumulated text, and the audio artifact the
code stores behind `URL.createObjectURL`. -/
structure RecordingTurn where
  id : String
  role : Role
  text : String
  audioUrl : WavBlob
deriving DecidableEq

/-- The mutable instance state of `CommunicationCoach`.  Nullable object
fields (`session`, the two audio contexts) are modelled by booleans recording
whether they are non-null; the analyser is `some data` when open, carrying
the byte frequency data `getByteFrequencyData` would fill in. -/
structure CoachState where
  sessionOpen : Bool
  audioInOpen : Bool
  audioOutOpen : Bool
  analyser : Option (List Nat)
  nextStartTime : ℚ
  sources : List Nat
  transcriptionHistory : List String
  turns : List RecordingTurn
  currentUserPCM : List ℚ
  currentAiPCM : List Int
  currentUserText : String
  currentAiText : String
  peaks : Nat
  lastPeakTime : Nat
deriving DecidableEq

/-- The field initializers of the class (all buffers empty, counters zero,
nullable fields null). -/
def initState : CoachState :=
  { sessionOpen := false
    audioInOpen := false
    audioOutOpen := false
    analyser := none
    nextStartTime := 0
    sources := []
    transcriptionHistory := []
    turns := []
    currentUserPCM := []
    currentAiPCM := []
    currentUserText := ""
    currentAiText := ""
    peaks := 0
    lastPeakTime := 0 }

/-!  ## Interruption handling (`onmessage`, `serverContent.interrupted`)  -/

/-- The `interrupted` branch of `onmessage`: stop every active source, clear
the set, reset the playback cursor.  Returns the new state together with the
list of sources that were stopped. -/
def handleInterrupted (s : CoachState) : CoachState × List Nat :=
  ({ s with sources := [], nextStartTime := 0 }, s.sources)

/-!  ## Playback scheduling (`onmessage`, model audio chunk)  -/

/-- One inbound model-audio message: the output clock
(`audioContextOut.currentTime`) observed while handling it, the duration of
the decoded buffer, the decoded 16-bit samples, and an identifier for the
created buffer source. -/
structure AudioChunkMsg where
  clock : ℚ
  dur : ℚ
  audioData : List Int
  sid : Nat
deriving DecidableEq

/-- The model-audio branch of `onmessage`: append the decoded samples to the
model PCM buffer, advance the cursor to `max(nextStartTime, currentTime)`,
start the source there, push the cursor past the buffer, and register the
source.  Returns the new state and the `startAt` time used. -/
def handleAudioChunk (m : AudioChunkMsg) (s : CoachState) : CoachState × ℚ :=
  let s1 := { s with currentAiPCM := s.currentAiPCM ++ m.audioData }
  let startAt := max s1.nextStartTime m.clock
  ({ s1 with nextStartTime := startAt + m.dur, sources := s1.sources ++ [m.sid] },
   startAt)

/-- Deliver a sequence of model-audio messages; collect each scheduled
`(startAt, duration)` pair in delivery order. -/
def runAudioChunks (s : CoachState) : List AudioChunkMsg → CoachState × List (ℚ × ℚ)
  | [] => (s, [])
  | m :: rest =>
    let p := handleAudioChunk m s
    let r := runAudioChunks p.1 rest
    (r.1, (p.2, m.dur) :: r.2)

/-!  ## Capture path (`scriptProcessor.onaudioprocess`)  -/

/-- Processing of one capture sample inside the `onaudioprocess` loop: push
the scaled value into the user PCM buffer; count a peak when the magnitude
exceeds 0.15 and more than 150 ms have passed since the last counted peak.
`now` is the `Date.now()` value observed at this iteration. -/
def processSample (now : Nat) (v : ℚ) (s : CoachState) : CoachState :=
  let s1 := { s with currentUserPCM := s.currentUserPCM ++ [v * 32768] }
  if mkRat 3 20 < |v| ∧ 150 < now - s1.lastPeakTime then
    { s1 with peaks := s1.peaks + 1, lastPeakTime := now }
  else
    s1

/-- Run the capture loop over a list of (timestamp, sample) pairs. -/
def processCapture (s : CoachState) : List (Nat × ℚ) → CoachState
  | [] => s
  | (t, v) :: rest => processCapture (processSample t v s) rest

/-- The console log the `catch` around `session.sendRealtimeInput` emits when
the send throws; a successful send logs nothing. -/
def sendLog : Except String Unit → List String
  | .ok _ => []
  | .error e => ["Failed to send realtime input: " ++ e]

/-- One `onaudioprocess` callback: if the session is gone, return early;
otherwise process every sample of the frame (all observed at time `t`) and
attempt the realtime send, whose failure is caught and logged.  Returns the
new state and the log lines. -/
def captureFrame (s : CoachState) (t : Nat) (frame : List ℚ)
    (sendOutcome : Except String Unit) : CoachState × List String :=
  if s.sessionOpen then
    (processCapture s (frame.map (fun v => (t, v))), sendLog sendOutcome)
  else
    (s, [])

/-- Run a sequence of capture frames; the outcome of the `n`-th frame's send
attempt is `outcomes n`. -/
def runCaptureFrames (s : CoachState) (outcomes : Nat → Except String Unit) :
    List (Nat × List ℚ) → CoachState
  | [] => s
  | (t, f) :: rest =>
      runCaptureFrames (captureFrame s t f (outcomes 0)).1
        (fun n => outcomes (n + 1)) rest

/-!  ## Turn completion (`onmessage`, `serverContent.turnComplete`)  -/

/-- The user turn pushed by the `turnComplete` branch. -/
def userTurnRec (now : Nat) (s : CoachState) : RecordingTurn :=
  ⟨"u-" ++ toString now, .user, s.currentUserText,
   pcmToWav (s.currentUserPCM.map jsToInt16) 16000⟩

/-- The model turn pushed by the `turnComplete` branch. -/
def aiTurnRec (now : Nat) (s : CoachState) : RecordingTurn :=
  ⟨"m-" ++ toString now, .model, s.currentAiText,
   pcmToWav (s.currentAiPCM.map toInt16) 24000⟩

/-- The `turnComplete` branch of `onmessage`: for each role whose pending
text is truthy (non-empty), package its pending PCM at that role's rate,
append the turn, and reset that role's buffers. -/
def handleTurnComplete (now : Nat) (s : CoachState) : CoachState :=
  let s1 :=
    if s.currentUserText ≠ "" then
      { s with turns := s.turns ++ [userTurnRec now s],
               currentUserPCM := [], currentUserText := "" }
    else s
  if s1.currentAiText ≠ "" then
    { s1 with turns := s1.turns ++ [aiTurnRec now s1],
              currentAiPCM := [], currentAiText := "" }
  else s1

/-!  ## `stopSession`, `getRealtimeMetrics`, `resetPaceCounter`, session-start reset  -/

/-- The final user turn `stopSession` flushes. -/
def userFinalTurn (now : Nat) (s : CoachState) : RecordingTurn :=
  ⟨"u-final-" ++ toString now, .user, s.currentUserText,
   pcmToWav (s.currentUserPCM.map jsToInt16) 16000⟩

/-- The final model turn `stopSession` flushes. -/
def aiFinalTurn (now : Nat) (s : CoachState) : RecordingTurn :=
  ⟨"m-final-" ++ toString now, .model, s.currentAiText,
   pcmToWav (s.currentAiPCM.map toInt16) 24000⟩

/-- `stopSession()`: close the session and both audio contexts, flush a final
turn for each role that still has pending text or pending samples, join the
transcription history, and reset the listed fields.  Returns the new state,
the history string, and the recorded turns. -/
def stopSession (now : Nat) (s : CoachState) :
    CoachState × String × List RecordingTurn :=
  let turns2 :=
    (s.turns ++
      (if s.currentUserText ≠ "" ∨ s.currentUserPCM ≠ [] then [userFinalTurn now s] else [])) ++
      (if s.currentAiText ≠ "" ∨ s.currentAiPCM ≠ [] then [aiFinalTurn now s] else [])
  let history := String.intercalate "\n" s.transcriptionHistory
  ({ s with sessionOpen := false
            audioInOpen := false
            audioOutOpen := false
            transcriptionHistory := []
            turns := []
            currentUserPCM := []
            currentAiPCM := []
            currentUserText := ""
            currentAiText := ""
            peaks := 0 },
   history, turns2)

/-- `getRealtimeMetrics()`: with no analyser, `{energy: 0, pace: 0}`;
otherwise the mean byte frequency amplitude normalized by 128 and the peak
count. -/
def getRealtimeMetrics (s : CoachState) : ℚ × Nat :=
  match s.analyser with
  | none => (0, 0)
  | some data => (((data.sum : ℚ) / (data.length : ℚ)) / 128, s.peaks)

/-- `resetPaceCounter()`: sets `peaks` to zero. -/
def resetPaceCounter (s : CoachState) : CoachState :=
  { s with peaks := 0 }

/-- The state re-initialization block at the top of `startSession` (after the
audio contexts and analyser are created): clears the turn list and both PCM
buffers, zeroes the pace counter and the playback cursor. -/
def startSessionReset (s : CoachState) : CoachState :=
  { s with turns := [], currentUserPCM := [], currentAiPCM := [],
           peaks := 0, nextStartTime := 0 }

end VocalEdge

namespace VocalEdge

/-!  ## Claim C2 — interruption effect  -/

/-- C2: on an `interrupted()` event the session stops every source in the
active set, clears the set, and resets the playback cursor to zero, while the
connection and audio endpoints stay open and the per-role pending sample
buffers, pending texts, turn list and history are unchanged. -/
theorem c2_interrupted_effect (s : CoachState) :
    (handleInterrupted s).2 = s.sources ∧
    (handleInterrupted s).1.sources = [] ∧
    (handleInterrupted s).1.nextStartTime = 0 ∧
    (handleInterrupted s).1.sessionOpen = s.sessionOpen ∧
    (handleInterrupted s).1.audioInOpen = s.audioInOpen ∧
    (handleInterrupted s).1.audioOutOpen = s.audioOutOpen ∧
    (handleInterrupted s).1.currentUserPCM = s.currentUserPCM ∧
    (handleInterrupted s).1.currentAiPCM = s.currentAiPCM ∧
    (handleInterrupted s).1.currentUserText = s.currentUserText ∧
    (handleInterrupted s).1.currentAiText = s.currentAiText ∧
    (handleInterrupted s).1.turns = s.turns ∧
    (handleInterrupted s).1.transcriptionHistory = s.transcriptionHistory := by
  and_intros <;> rfl

/-!  ## Claim C9 — pace counter resets  -/

/-- A state in which a peak was counted at millisecond 7. -/
def ex9 : CoachState :=
  { initState with peaks := 3, lastPeakTime := 7 }

/-- C9 counterexample: neither `resetPaceCounter` nor the session-start state
re-initialization resets the last-peak timestamp to its initial value 0 — at
a state with `lastPeakTime = 7` both operations leave it at 7. -/
theorem c9_counterexample :
    (resetPaceCounter ex9).lastPeakTime ≠ 0 ∧
    (startSessionReset ex9).lastPeakTime ≠ 0 := by
  decide

/-- C9 amended: `resetPaceCounter` sets the pace counter to zero and leaves
every other field — in particular `lastPeakTime` — unchanged; the
session-start re-initialization zeroes the pace counter, turn list, PCM
buffers and playback cursor but also leaves `lastPeakTime` (and the pending
texts, history and sources) unchanged.  No operation of the sampler resets
either field. -/
theorem c9_reset_amended (s : CoachState) :
    (resetPaceCounter s).peaks = 0 ∧
    (resetPaceCounter s).lastPeakTime = s.lastPeakTime ∧
    (resetPaceCounter s).sessionOpen = s.sessionOpen ∧
    (resetPaceCounter s).analyser = s.analyser ∧
    (resetPaceCounter s).nextStartTime = s.nextStartTime ∧
    (resetPaceCounter s).sources = s.sources ∧
    (resetPaceCounter s).transcriptionHistory = s.transcriptionHistory ∧
    (resetPaceCounter s).turns = s.turns ∧
    (resetPaceCounter s).currentUserPCM = s.currentUserPCM ∧
    (resetPaceCounter s).currentAiPCM = s.currentAiPCM ∧
    (resetPaceCounter s).currentUserText = s.currentUserText ∧
    (resetPaceCounter s).currentAiText = s.currentAiText ∧
    (startSessionReset s).peaks = 0 ∧
    (startSessionReset s).turns = [] ∧
    (startSessionReset s).currentUserPCM = [] ∧
    (startSessionReset s).currentAiPCM = [] ∧
    (startSessionReset s).nextStartTime = 0 ∧
    (startSessionReset s).lastPeakTime = s.lastPeakTime ∧
    (startSessionReset s).sources = s.sources ∧
    (startSessionReset s).currentUserText = s.currentUserText ∧
    (startSessionReset s).currentAiText = s.currentAiText ∧
    (startSessionReset s).transcriptionHistory = s.transcriptionHistory := by
  and_intros <;> rfl

/-!  ## Claim C10 — metrics with no analyser  -/

/-- C10: before any capture analyser is open, `getRealtimeMetrics()` returns
exactly `{energy: 0, pace: 0}`, whatever the pace counter holds. -/
theorem c10_metrics_no_analyser (s : CoachState) (h : s.analyser = none) :
    getRealtimeMetrics s = (0, 0) := by
  simp [getRealtimeMetrics, h]

/-- A state with no analyser but a non-zero pace counter. -/
def ex10 : CoachState :=
  { initState with peaks := 5 }

/-- C10 witness: at a concrete analyser-less state whose pace counter is 5
the metrics are exactly `(0, 0)`. -/
theorem c10_metrics_no_analyser_witness :
    ex10.analyser = none ∧ ex10.peaks = 5 ∧ getRealtimeMetrics ex10 = (0, 0) :=
  ⟨rfl, rfl, c10_metrics_no_analyser ex10 rfl⟩

/-!  ## Claim C8 — fire-and-forget send  -/

/-- C8: a failing `sendRealtimeInput` is caught and logged: the state after a
capture frame is the same whether the send throws or succeeds, the failure
only produces a log line, and running any sequence of capture frames yields a
state independent of the send outcomes (capture keeps going). -/
theorem c8_send_fire_and_forget :
    (∀ (s : CoachState) (t : Nat) (frame : List ℚ) (e : String),
        (captureFrame s t frame (.error e)).1 = (captureFrame s t frame (.ok ())).1 ∧
        (captureFrame s t frame (.error e)).2 =
          if s.sessionOpen then ["Failed to send realtime input: " ++ e] else []) ∧
    (∀ (s : CoachState) (o1 o2 : Nat → Except String Unit)
        (frames : List (Nat × List ℚ)),
        runCaptureFrames s o1 frames = runCaptureFrames s o2 frames) := by
  constructor
  · intro s t frame e
    constructor
    · cases hs : s.sessionOpen <;> simp [captureFrame, hs]
    · cases hs : s.sessionOpen <;> simp [captureFrame, sendLog, hs]
  · intro s o1 o2 frames
    induction frames generalizing s o1 o2 with
    | nil => rfl
    | cons p rest ih =>
      obtain ⟨t, f⟩ := p
      simp only [runCaptureFrames]
      have hstate : (captureFrame s t f (o1 0)).1 = (captureFrame s t f (o2 0)).1 := by
        cases hs : s.sessionOpen <;> simp [captureFrame, hs]
      rw [hstate]
      exact ih ..

/-!  ## Claim C5 — stop() return value and state reset  -/

/-- A mid-session state with a counted peak, a scheduled source and a
non-zero playback cursor. -/
def ex5 : CoachState :=
  { initState with sessionOpen := true, lastPeakTime := 7, nextStartTime := 2,
                   sources := [1] }

/-- C5 counterexample: after `stopSession` the last-peak timestamp, playback
cursor and active-source set are NOT reset — at a state with
`lastPeakTime = 7`, `nextStartTime = 2`, `sources = [1]` they keep those
values. -/
theorem c5_counterexample :
    (stopSession 0 ex5).1.lastPeakTime ≠ 0 ∧
    (stopSession 0 ex5).1.nextStartTime ≠ 0 ∧
    (stopSession 0 ex5).1.sources ≠ [] := by
  decide

/-- C5 amended: `stop()` is total on every state, returns the joined
transcription history together with the finalized turn list (previous turns
plus the per-role flush), and resets the pending sample buffers, pending
texts, transcription history, turn list and pace counter while closing the
session and both audio endpoints — but it leaves the last-peak timestamp,
the playback cursor and the active-source set unchanged, and a second stop
returns an empty history and no turns. -/
theorem c5_stop_amended (now now2 : Nat) (s : CoachState) :
    (stopSession now s).2.1 = String.intercalate "\n" s.transcriptionHistory ∧
    (stopSession now s).2.2 =
      (s.turns ++
        (if s.currentUserText ≠ "" ∨ s.currentUserPCM ≠ [] then [userFinalTurn now s] else [])) ++
        (if s.currentAiText ≠ "" ∨ s.currentAiPCM ≠ [] then [aiFinalTurn now s] else []) ∧
    (stopSession now s).1.sessionOpen = false ∧
    (stopSession now s).1.audioInOpen = false ∧
    (stopSession now s).1.audioOutOpen = false ∧
    (stopSession now s).1.transcriptionHistory = [] ∧
    (stopSession now s).1.turns = [] ∧
    (stopSession now s).1.currentUserPCM = [] ∧
    (stopSession now s).1.currentAiPCM = [] ∧
    (stopSession now s).1.currentUserText = "" ∧
    (stopSession now s).1.currentAiText = "" ∧
    (stopSession now s).1.peaks = 0 ∧
    (stopSession now s).1.lastPeakTime = s.lastPeakTime ∧
    (stopSession now s).1.nextStartTime = s.nextStartTime ∧
    (stopSession now s).1.sources = s.sources ∧
    (stopSession now s).1.analyser = s.analyser ∧
    (stopSession now2 (stopSession now s).1).2.1 = "" ∧
    (stopSession now2 (stopSession now s).1).2.2 = [] := by
  and_intros <;> rfl

end VocalEdge

namespace VocalEdge

/-!  ## Claim C3 — turn aggregation on turnComplete  -/

/-- C3: on `turnComplete()`, a role with non-empty pending text gets a Turn
appended (role, pending text, artifact at 16000 Hz for user / 24000 Hz for
model) and its pending buffers reset; a role with empty pending text
produces no Turn and keeps its buffers, even if it has accumulated samples.
All other session fields are untouched. -/
theorem c3_turn_complete (now : Nat) (s : CoachState) :
    (handleTurnComplete now s).turns =
      (s.turns ++ (if s.currentUserText ≠ "" then [userTurnRec now s] else [])) ++
        (if s.currentAiText ≠ "" then [aiTurnRec now s] else []) ∧
    (handleTurnComplete now s).currentUserPCM =
      (if s.currentUserText ≠ "" then [] else s.currentUserPCM) ∧
    (handleTurnComplete now s).currentUserText =
      (if s.currentUserText ≠ "" then "" else s.currentUserText) ∧
    (handleTurnComplete now s).currentAiPCM =
      (if s.currentAiText ≠ "" then [] else s.currentAiPCM) ∧
    (handleTurnComplete now s).currentAiText =
      (if s.currentAiText ≠ "" then "" else s.currentAiText) ∧
    (userTurnRec now s).role = .user ∧
    (userTurnRec now s).text = s.currentUserText ∧
    (userTurnRec now s).audioUrl = pcmToWav (s.currentUserPCM.map jsToInt16) 16000 ∧
    (aiTurnRec now s).role = .model ∧
    (aiTurnRec now s).text = s.currentAiText ∧
    (aiTurnRec now s).audioUrl = pcmToWav (s.currentAiPCM.map toInt16) 24000 ∧
    (handleTurnComplete now s).sessionOpen = s.sessionOpen ∧
    (handleTurnComplete now s).nextStartTime = s.nextStartTime ∧
    (handleTurnComplete now s).sources = s.sources ∧
    (handleTurnComplete now s).peaks = s.peaks ∧
    (handleTurnComplete now s).lastPeakTime = s.lastPeakTime ∧
    (handleTurnComplete now s).transcriptionHistory = s.transcriptionHistory := by
  by_cases hu : s.currentUserText = "" <;>
    by_cases ha : s.currentAiText = "" <;>
      simp [handleTurnComplete, userTurnRec, aiTurnRec, hu, ha]

/-!  ## Claim C4 — turn flush on stop  -/

/-- C4: `stop()` flushes a final Turn for a role whenever that role still has
pending samples — in particular both when its pending text is non-empty and
when the text is empty (trailing untranscribed audio is kept) — and a role
whose pending sample buffer and pending text are both empty contributes no
new Turn (every returned turn of that role was already in the turn list). -/
theorem c4_stop_flush (now : Nat) (s : CoachState) :
    (s.currentUserPCM ≠ [] → s.currentUserText ≠ "" →
        userFinalTurn now s ∈ (stopSession now s).2.2) ∧
    (s.currentUserPCM ≠ [] → s.currentUserText = "" →
        userFinalTurn now s ∈ (stopSession now s).2.2) ∧
    (s.currentAiPCM ≠ [] → s.currentAiText ≠ "" →
        aiFinalTurn now s ∈ (stopSession now s).2.2) ∧
    (s.currentAiPCM ≠ [] → s.currentAiText = "" →
        aiFinalTurn now s ∈ (stopSession now s).2.2) ∧
    (s.currentUserPCM = [] → s.currentUserText = "" →
        ∀ t ∈ (stopSession now s).2.2, t.role = .user → t ∈ s.turns) ∧
    (s.currentAiPCM = [] → s.currentAiText = "" →
        ∀ t ∈ (stopSession now s).2.2, t.role = .model → t ∈ s.turns) := by
  refine ⟨?_, ?_, ?_, ?_, ?_, ?_⟩
  · intro hp _
    simp [stopSession, hp]
  · intro hp _
    simp [stopSession, hp]
  · intro hp _
    simp [stopSession, hp]
  · intro hp _
    simp [stopSession, hp]
  · intro hp ht t hmem hrole
    simp [stopSession, hp, ht] at hmem
    rcases hmem with hmem | hmem
    · exact hmem
    · rcases hmem with ⟨hcond, rfl⟩
      simp [aiFinalTurn] at hrole
  · intro hp ht t hmem hrole
    simp [stopSession, hp, ht] at hmem
    rcases hmem with hmem | hmem
    · exact hmem
    · rcases hmem with ⟨hcond, rfl⟩
      simp [userFinalTurn] at hrole

/-- A state about to stop: the user role has trailing samples but no
transcription, the model role has text and samples, a third configuration
(both empty) is checked on `initState`. -/
def ex4 : CoachState :=
  { initState with sessionOpen := true,
                   currentUserPCM := [1000, 2000],
                   currentUserText := "",
                   currentAiPCM := [3, 4],
                   currentAiText := "hi there" }

/-- C4 witness: on `ex4`, stopping yields a user Turn (audio, no text) and a
model Turn (audio and text); on the empty initial state, stopping yields no
user Turn. -/
theorem c4_stop_flush_witness :
    userFinalTurn 0 ex4 ∈ (stopSession 0 ex4).2.2 ∧
    aiFinalTurn 0 ex4 ∈ (stopSession 0 ex4).2.2 ∧
    (∀ t ∈ (stopSession 0 initState).2.2, t.role = .user → t ∈ initState.turns) :=
  ⟨(c4_stop_flush 0 ex4).2.1 (by decide) (by decide),
   (c4_stop_flush 0 ex4).2.2.1 (by decide) (by decide),
   (c4_stop_flush 0 initState).2.2.2.2.1 (by decide) (by decide)⟩

end VocalEdge

namespace VocalEdge

/-!  ## Claim C1 — playback scheduling is monotone and non-overlapping  -/

/-- The first scheduled start time of a run is at least the initial playback
cursor. -/
theorem runAudioChunks_head_ge (msgs : List AudioChunkMsg) (s : CoachState)
    (q : ℚ × ℚ) (hq : (runAudioChunks s msgs).2.head? = some q) :
    s.nextStartTime ≤ q.1 := by
  cases msgs with
  | nil => simp [runAudioChunks] at hq
  | cons m rest =>
    simp only [runAudioChunks, List.head?_cons, Option.some.injEq] at hq
    subst hq
    exact le_max_left _ _

/-- Every run of audio chunks with non-negative durations schedules a chain
of intervals where each start lies at or after the previous interval's
end. -/
theorem runAudioChunks_chain :
    ∀ (msgs : List AudioChunkMsg) (s : CoachState), (∀ m ∈ msgs, 0 ≤ m.dur) →
      List.Chain' (fun p q : ℚ × ℚ => p.1 + p.2 ≤ q.1 ∧ p.1 ≤ q.1)
        (runAudioChunks s msgs).2
  | [], _, _ => by simp [runAudioChunks]
  | m :: rest, s, h => by
    have hd : 0 ≤ m.dur := h m (List.mem_cons_self m rest)
    have ih := runAudioChunks_chain rest (handleAudioChunk m s).1
      (fun x hx => h x (List.mem_cons_of_mem m hx))
    simp only [runAudioChunks]
    refine List.chain'_cons'.mpr ⟨?_, ih⟩
    intro q hq
    have hge := runAudioChunks_head_ge rest (handleAudioChunk m s).1 q hq
    have hcursor : (handleAudioChunk m s).1.nextStartTime =
        (handleAudioChunk m s).2 + m.dur := rfl
    rw [hcursor] at hge
    exact ⟨hge, le_trans (le_add_of_nonneg_right hd) hge⟩

/-- C1: each decoded buffer is scheduled at
`startAt = max(nextPlaybackCursor, currentOutputClock)` and the cursor then
advances to `startAt + duration`; consequently, over any interruption-free
sequence of decoded buffers with non-negative durations, the successive
start times are non-decreasing and consecutive scheduled intervals
`[startAt, startAt + duration)` never overlap. -/
theorem c1_playback_schedule :
    (∀ (m : AudioChunkMsg) (s : CoachState),
        (handleAudioChunk m s).2 = max s.nextStartTime m.clock ∧
        (handleAudioChunk m s).1.nextStartTime = (handleAudioChunk m s).2 + m.dur) ∧
    (∀ (s : CoachState) (msgs : List AudioChunkMsg), (∀ m ∈ msgs, 0 ≤ m.dur) →
        List.Chain' (fun p q : ℚ × ℚ => p.1 + p.2 ≤ q.1 ∧ p.1 ≤ q.1)
          (runAudioChunks s msgs).2) :=
  ⟨fun _ _ => ⟨rfl, rfl⟩, fun s msgs h => runAudioChunks_chain msgs s h⟩

/-- Three concrete model-audio messages: the output clock runs ahead of the
cursor on the second message. -/
def ex1Msgs : List AudioChunkMsg :=
  [⟨0, 1, [5], 10⟩, ⟨2, 1, [6], 11⟩, ⟨1, 1, [], 12⟩]

/-- C1 witness: on three concrete buffers the scheduled `(startAt, duration)`
pairs form a non-overlapping, non-decreasing chain. -/
theorem c1_playback_schedule_witness :
    List.Chain' (fun p q : ℚ × ℚ => p.1 + p.2 ≤ q.1 ∧ p.1 ≤ q.1)
      (runAudioChunks initState ex1Msgs).2 :=
  c1_playback_schedule.2 initState ex1Msgs (by simp [ex1Msgs])

end VocalEdge

namespace VocalEdge

/-!  ## Claim C6 — pace peak detection  -/

/-- A capture run in which no sample lies beyond the refractory window of the
last counted peak counts no peak and keeps the last-peak timestamp. -/
theorem processCapture_no_peak :
    ∀ (l : List (Nat × ℚ)) (s : CoachState),
      (∀ p ∈ l, p.1 ≤ s.lastPeakTime + 150) →
      (processCapture s l).peaks = s.peaks ∧
        (processCapture s l).lastPeakTime = s.lastPeakTime
  | [], _, _ => ⟨rfl, rfl⟩
  | (t, v) :: rest, s, h => by
    have ht : t ≤ s.lastPeakTime + 150 := h (t, v) (List.mem_cons_self _ _)
    have hcond : ¬(mkRat 3 20 < |v| ∧ 150 < t - s.lastPeakTime) := by
      rintro ⟨-, h2⟩
      omega
    have hstep : processSample t v s =
        { s with currentUserPCM := s.currentUserPCM ++ [v * 32768] } := by
      simp [processSample, hcond]
    have ih := processCapture_no_peak rest
      { s with currentUserPCM := s.currentUserPCM ++ [v * 32768] }
      (fun p hp => h p (List.mem_cons_of_mem _ hp))
    simpa [processCapture, hstep] using ih

/-- A capture run whose loud samples are each separated by more than the
refractory interval, the first lying beyond the window of the last counted
peak, counts one peak per sample. -/
theorem processCapture_spaced :
    ∀ (l : List (Nat × ℚ)) (s : CoachState),
      (∀ p ∈ l, mkRat 3 20 < |p.2|) →
      List.Chain (fun a b => a + 150 < b) s.lastPeakTime (l.map Prod.fst) →
      (processCapture s l).peaks = s.peaks + l.length
  | [], _, _, _ => rfl
  | (t, v) :: rest, s, hmag, hchain => by
    rw [List.map_cons] at hchain
    rcases List.chain_cons.mp hchain with ⟨h1, h2⟩
    have hcond : mkRat 3 20 < |v| ∧ 150 < t - s.lastPeakTime :=
      ⟨hmag (t, v) (List.mem_cons_self _ _), by omega⟩
    have hstep : processSample t v s =
        { s with currentUserPCM := s.currentUserPCM ++ [v * 32768],
                 peaks := s.peaks + 1, lastPeakTime := t } := by
      simp [processSample, hcond]
    have ih := processCapture_spaced rest
      { s with currentUserPCM := s.currentUserPCM ++ [v * 32768],
               peaks := s.peaks + 1, lastPeakTime := t }
      (fun p hp => hmag p (List.mem_cons_of_mem _ hp)) h2
    simp only [processCapture, hstep, ih, List.length_cons]
    omega

/-- A loud sample beyond the refractory window followed only by samples
inside its window counts exactly one peak. -/
theorem processCapture_collapse (s : CoachState) (t : Nat) (v : ℚ)
    (rest : List (Nat × ℚ)) (hmag : mkRat 3 20 < |v|)
    (hfirst : s.lastPeakTime + 150 < t) (hwin : ∀ p ∈ rest, p.1 ≤ t + 150) :
    (processCapture s ((t, v) :: rest)).peaks = s.peaks + 1 := by
  have hcond : mkRat 3 20 < |v| ∧ 150 < t - s.lastPeakTime := ⟨hmag, by omega⟩
  have hstep : processSample t v s =
      { s with currentUserPCM := s.currentUserPCM ++ [v * 32768],
               peaks := s.peaks + 1, lastPeakTime := t } := by
    simp [processSample, hcond]
  have hrest := processCapture_no_peak rest
    { s with currentUserPCM := s.currentUserPCM ++ [v * 32768],
             peaks := s.peaks + 1, lastPeakTime := t } hwin
  simp only [processCapture, hstep]
  exact hrest.1

/-- A state whose last counted peak is at millisecond 1000. -/
def ex6 : CoachState :=
  { initState with lastPeakTime := 1000 }

/-- C6 counterexample: a sample of magnitude 1 arriving exactly 150 ms after
the last counted peak satisfies the claim's condition (magnitude above 0.15,
at least 150 ms elapsed) yet the code counts no peak — the code requires
strictly more than 150 ms. -/
theorem c6_counterexample :
    mkRat 3 20 < |(1 : ℚ)| ∧ 150 ≤ 1150 - ex6.lastPeakTime ∧
    (processSample 1150 1 ex6).peaks = ex6.peaks := by
  decide

/-- C6 amended: a peak is counted exactly when the sample magnitude exceeds
0.15 and STRICTLY more than 150 ms have elapsed since the last counted peak;
consequently loud samples pairwise separated by more than 150 ms are each
counted, while a counted peak followed only by loud samples within its
150 ms refractory window collapses to one count. -/
theorem c6_pace_amended :
    (∀ (t : Nat) (v : ℚ) (s : CoachState),
        (processSample t v s).peaks =
          if mkRat 3 20 < |v| ∧ 150 < t - s.lastPeakTime then s.peaks + 1
          else s.peaks) ∧
    (∀ (l : List (Nat × ℚ)) (s : CoachState),
        (∀ p ∈ l, mkRat 3 20 < |p.2|) →
        List.Chain (fun a b => a + 150 < b) s.lastPeakTime (l.map Prod.fst) →
        (processCapture s l).peaks = s.peaks + l.length) ∧
    (∀ (s : CoachState) (t : Nat) (v : ℚ) (rest : List (Nat × ℚ)),
        mkRat 3 20 < |v| → s.lastPeakTime + 150 < t →
        (∀ p ∈ rest, p.1 ≤ t + 150) →
        (processCapture s ((t, v) :: rest)).peaks = s.peaks + 1) := by
  refine ⟨?_, processCapture_spaced, processCapture_collapse⟩
  intro t v s
  by_cases h : mkRat 3 20 < |v| ∧ 150 < t - s.lastPeakTime <;>
    simp [processSample, h]

/-- C6 witness: two loud samples 200 ms apart are both counted; a loud
sample followed by two loud samples 100 and 140 ms later yields one count. -/
theorem c6_pace_amended_witness :
    (processCapture initState [(200, 1), (400, 1)]).peaks = initState.peaks + 2 ∧
    (processCapture initState [(200, 1), (300, 1), (340, 1)]).peaks =
      initState.peaks + 1 :=
  ⟨c6_pace_amended.2.1 [(200, 1), (400, 1)] initState (by decide)
     (by simp [initState, List.chain_cons]),
   c6_pace_amended.2.2 initState 200 1 [(300, 1), (340, 1)]
     (by decide) (by decide) (by decide)⟩

end VocalEdge


namespace VocalEdge

/-!  ## Claim C7 — transport encoding round trip

The audio codec (`createBlob` / `decode` in `services/audioUtils.ts`) is not
among the sources here; it is modelled from the spec: 16-bit PCM samples are
laid out as little-endian bytes, base64-encoded into the transport payload
and tagged with the sample rate; decoding is the inverse (inbound payload
bytes are reinterpreted as little-endian 16-bit samples). -/

/-- The standard base64 alphabet. -/
def b64Alphabet : List Char :=
  "ABCDEFGHIJKLMNOPQRSTUVWXYZabcdefghijklmnopqrstuvwxyz0123456789+/".toList

/-- Character for a 6-bit value. -/
def b64Char (n : Nat) : Char :=
  b64Alphabet.getD n 'A'

/-- 6-bit value of an alphabet character. -/
def b64Index (c : Char) : Nat :=
  b64Alphabet.indexOf c

/-- Modelled from the spec: base64-encode a byte sequence (groups of three
bytes become four characters; a short final group is padded with `=`). -/
def b64EncodeBytes : List Nat → List Char
  | [] => []
  | [a] => [b64Char (a / 4), b64Char (a % 4 * 16), '=', '=']
  | [a, b] => [b64Char (a / 4), b64Char (a % 4 * 16 + b / 16),
               b64Char (b % 16 * 4), '=']
  | a :: b :: c :: rest =>
      b64Char (a / 4) :: b64Char (a % 4 * 16 + b / 16) ::
        b64Char (b % 16 * 4 + c / 64) :: b64Char (c % 64) ::
          b64EncodeBytes rest

/-- Modelled from the spec: base64-decode a character sequence back to
bytes. -/
def b64DecodeChars : List Char → List Nat
  | w :: x :: y :: z :: rest =>
      if z = '=' then
        if y = '=' then
          [b64Index w * 4 + b64Index x / 16]
        else
          [b64Index w * 4 + b64Index x / 16,
           b64Index x % 16 * 16 + b64Index y / 4]
      else
        (b64Index w * 4 + b64Index x / 16) ::
          (b64Index x % 16 * 16 + b64Index y / 4) ::
            (b64Index y % 4 * 64 + b64Index z) ::
              b64DecodeChars rest
  | _ => []

/-- Little-endian bytes of a 16-bit PCM sample sequence. -/
def int16sToBytes : List Int → List Nat
  | [] => []
  | s :: rest =>
      (s % 65536).toNat % 256 :: (s % 65536).toNat / 256 :: int16sToBytes rest

/-- Reinterpret little-endian bytes as signed 16-bit samples (what
`new Int16Array(bytes.buffer)` does to decoded audio). -/
def bytesToInt16s : List Nat → List Int
  | b0 :: b1 :: rest =>
      (if 32768 ≤ b0 + 256 * b1 then ((b0 + 256 * b1 : Nat) : Int) - 65536
       else ((b0 + 256 * b1 : Nat) : Int)) :: bytesToInt16s rest
  | _ => []

/-- The transport-ready chunk `createBlob` produces: base64 payload plus a
mime descriptor naming the sample rate. -/
structure TransportFrame where
  payload : String
  mimeType : String
deriving DecidableEq

/-- Modelled from the spec: `pcm16ToTransportFrame(samples, rate)` — base64
of the little-endian 16-bit data, tagged `audio/pcm;rate=<rate>`. -/
def pcm16ToTransportFrame (samples : List Int) (rate : Nat) : TransportFrame :=
  ⟨String.mk (b64EncodeBytes (int16sToBytes samples)),
   "audio/pcm;rate=" ++ toString rate⟩

/-- Modelled from the spec: `decodeTransportAudio(payload)` — base64-decode
and reinterpret as 16-bit samples. -/
def decodeTransportAudio (p : String) : List Int :=
  bytesToInt16s (b64DecodeChars p.toList)

/-- Decoding inverts the alphabet on 6-bit values. -/
theorem b64Index_b64Char : ∀ n < 64, b64Index (b64Char n) = n := by
  decide

/-- No alphabet character is the padding character. -/
theorem b64Char_ne_pad : ∀ n < 64, b64Char n ≠ '=' := by
  decide

/-- Base64 round trip on byte sequences. -/
theorem b64_roundtrip :
    ∀ (l : List Nat), (∀ b ∈ l, b < 256) →
      b64DecodeChars (b64EncodeBytes l) = l
  | [], _ => rfl
  | [a], h => by
    have ha : a < 256 := h a (by simp)
    simp only [b64EncodeBytes, b64DecodeChars, reduceIte]
    rw [b64Index_b64Char _ (by omega), b64Index_b64Char _ (by omega)]
    congr 1
    omega
  | [a, b], h => by
    have ha : a < 256 := h a (by simp)
    have hb : b < 256 := h b (by simp)
    simp only [b64EncodeBytes, b64DecodeChars, reduceIte,
      if_neg (b64Char_ne_pad (b % 16 * 4) (by omega))]
    rw [b64Index_b64Char _ (by omega), b64Index_b64Char _ (by omega),
      b64Index_b64Char _ (by omega)]
    congr 1
    · omega
    congr 1
    omega
  | a :: b :: c :: rest, h => by
    have ha : a < 256 := h a (by simp)
    have hb : b < 256 := h b (by simp)
    have hc : c < 256 := h c (by simp)
    have ih := b64_roundtrip rest (fun x hx => h x (by simp [hx]))
    simp only [b64EncodeBytes, b64DecodeChars,
      if_neg (b64Char_ne_pad (c % 64) (by omega))]
    rw [b64Index_b64Char _ (by omega), b64Index_b64Char _ (by omega),
      b64Index_b64Char _ (by omega), b64Index_b64Char _ (by omega), ih]
    congr 1
    · omega
    congr 1
    · omega
    congr 1
    omega

/-- The little-endian encoding only emits byte values. -/
theorem int16sToBytes_lt :
    ∀ (l : List Int), ∀ b ∈ int16sToBytes l, b < 256
  | [], b, hb => by simp [int16sToBytes] at hb
  | s :: rest, b, hb => by
    simp only [int16sToBytes, List.mem_cons] at hb
    have hmod : (0 : Int) ≤ s % 65536 := Int.emod_nonneg s (by omega)
    have hlt : s % 65536 < 65536 := Int.emod_lt_of_pos s (by omega)
    rcases hb with rfl | rfl | hb
    · omega
    · omega
    · exact int16sToBytes_lt rest b hb

/-- 16-bit little-endian round trip on in-range samples. -/
theorem bytes_int16_roundtrip :
    ∀ (l : List Int), (∀ s ∈ l, -32768 ≤ s ∧ s < 32768) →
      bytesToInt16s (int16sToBytes l) = l
  | [], _ => rfl
  | s :: rest, h => by
    have hs := h s (List.mem_cons_self _ _)
    have ih := bytes_int16_roundtrip rest (fun x hx => h x (List.mem_cons_of_mem _ hx))
    simp only [int16sToBytes, bytesToInt16s, ih]
    congr 1
    split <;> omega

/-- C7: for any 16-bit sample sequence and any rate, decoding the transport
payload produced by encoding reproduces the samples exactly. -/
theorem c7_transport_roundtrip (samples : List Int) (rate : Nat)
    (h : ∀ s ∈ samples, -32768 ≤ s ∧ s < 32768) :
    decodeTransportAudio (pcm16ToTransportFrame samples rate).payload = samples := by
  show bytesToInt16s
      (b64DecodeChars (String.mk (b64EncodeBytes (int16sToBytes samples))).toList) =
    samples
  rw [show (String.mk (b64EncodeBytes (int16sToBytes samples))).toList =
      b64EncodeBytes (int16sToBytes samples) from rfl]
  rw [b64_roundtrip _ (int16sToBytes_lt samples)]
  exact bytes_int16_roundtrip samples h

/-- C7 witness: a concrete sample sequence hitting both byte orders, the
16-bit extremes and a padded final group round-trips exactly at rate
16000. -/
theorem c7_transport_roundtrip_witness :
    (∀ s ∈ ([0, 1, -1, 300, -300, 32767, -32768] : List Int),
        -32768 ≤ s ∧ s < 32768) ∧
    decodeTransportAudio
        (pcm16ToTransportFrame [0, 1, -1, 300, -300, 32767, -32768] 16000).payload =
      [0, 1, -1, 300, -300, 32767, -32768] :=
  ⟨by decide,
   c7_transport_roundtrip [0, 1, -1, 300, -300, 32767, -32768] 16000 (by decide)⟩

end VocalEdge
